import Mathlib

/-
  Verification development for the agora crawl engine.

  Shallow embedding of the crawl core found in `src/scraper/agora_crawler.py`
  (class AgoraCrawlerService) and, where a claim compares the two duplicated
  variants, the module-level functions of `src/src/backend/crawler.py`.

  External collaborators (the HTTP client, the `validators` library, the
  `urllib.parse` / `protego` / BeautifulSoup parsers) are modelled as an
  explicit environment of pure functions: the embedding is parametric in the
  outcome every such call would produce, and the crawler logic itself is
  translated line by line from the Python source.  Wall-clock timing
  (`processing_time`, sleeps) is outside the embedding; the sleep calls carry
  no data flow.  Python exceptions are modelled with `Option`/`Except`
  outcomes consumed exactly where the source has try/except handlers.
-/

namespace AgoraSpec

/-- Result of `urllib.parse.urlparse`: the components the crawler reads. -/
structure ParsedURL where
  scheme : String
  netloc : String
  path : String
deriving DecidableEq, Repr

/-- Outcome of one HTTP GET: a response (final, after any redirect handling
the issuing client performs) or a raised transport exception. -/
inductive GetOutcome where
  | ok (status_code : Nat) (text : String)
  | exn (msg : String)
deriving DecidableEq, Repr

/-- What `protego` produces for one queried (robots.txt body, url, user agent)
triple: crawl delay, request rate, preferred host, and the allow decision. -/
structure RawRobots where
  crawl_delay : Option Rat
  request_rate : Option (Nat × Nat)
  preferred_host : Option String
  is_allowed : Bool
deriving DecidableEq, Repr

/-- What BeautifulSoup exposes of a parsed document: the string of the first
title element (if the element exists and its string is not None or empty),
the href of every `a[href]` anchor in document order, and the visible text
after script/style removal. -/
structure Dom where
  titleString : Option String
  anchors : List String
  text : String
deriving DecidableEq, Repr

/-- The environment: outcomes of every external call the crawler makes.
`http` is a GET by a redirect-following client (the page fetch); `http_simple`
is a GET by the plain client used by the service for robots.txt, which does
not follow redirects. -/
structure Env where
  http : String → GetOutcome
  http_simple : String → GetOutcome
  validateUrl : String → Bool
  urlparse : String → ParsedURL
  urljoin : String → String → String
  parseRobots : String → String → String → Except String RawRobots
  parseDom : String → Except String Dom

/-- Service configuration (`AgoraCrawlerService.__init__`); the source default
for `default_crawl_delay` is 1.0 seconds. -/
structure Config where
  user_agent : String
  respect_robots : Bool
  default_crawl_delay : Rat
deriving DecidableEq, Repr

/-- Status constant `CRAWL_SUCCESS` of `agora_crawler.py`. -/
def CRAWL_SUCCESS : String := "success"

/-- Status constant `CRAWL_FAILED` of `agora_crawler.py`. -/
def CRAWL_FAILED : String := "failed"

/-- Status constant `CRAWL_ROBOTS_BLOCKED` of `agora_crawler.py`. -/
def CRAWL_ROBOTS_BLOCKED : String := "robots_blocked"

/-- Status constant `CRAWL_INVALID_URL` of `agora_crawler.py`. -/
def CRAWL_INVALID_URL : String := "invalid_url"

/-- The `RobotsInfo` dataclass. -/
structure RobotsInfo where
  crawl_delay : Option Rat
  request_rate : Option (Nat × Nat)
  preferred_host : Option String
  is_allowed : Bool
deriving DecidableEq, Repr

/-- The `CrawlResult` dataclass.  `processing_time` (wall clock) and
`extracted_data` (always defaulted to None by the service) are omitted from
the embedding. -/
structure CrawlResult where
  url : String
  title : Option String
  content : String
  status : String
  children : List String
  robots_allowed : Bool
  crawl_delay : Option Rat
  status_code : Option Nat
  error_message : Option String
deriving DecidableEq, Repr

/-- Python's `s.rstrip("/")` on a code-point list: drop all trailing `'/'`. -/
def rstrip_slash (s : List Char) : List Char :=
  (s.reverse.dropWhile (fun c => c = '/')).reverse

/-- The core of `is_sub_path` (identical in both source variants), acting on
the `urlparse` results of its two string arguments.  The indexing
`link_path[len(parent_path)]` is partial in Python (IndexError when out of
bounds); it is rendered as `List.get?`, so the whole check returns `none`
exactly when that access would raise. -/
def is_sub_path_core (link parent : ParsedURL) : Option Bool :=
  if link.netloc ≠ parent.netloc then some false
  else
    let link_path := rstrip_slash link.path.data
    let parent_path := rstrip_slash parent.path.data
    if ¬ parent_path.isPrefixOf link_path then some false
    else if link_path = parent_path then some true
    else (link_path.get? parent_path.length).map (fun c => c = '/')

/-- `AgoraCrawlerService.is_sub_path`: the same check with its
`except Exception: return False` wrapper. -/
def is_sub_path (env : Env) (link parent_url : String) : Bool :=
  match is_sub_path_core (env.urlparse link) (env.urlparse parent_url) with
  | some b => b
  | none => false

/-- C1 helper: the spec's wording of the scope predicate (the claim's
right-hand side), stated independently of the source code. -/
def spec_in_scope (link parent : ParsedURL) : Prop :=
  rstrip_slash link.path.data = rstrip_slash parent.path.data ∨
    (rstrip_slash parent.path.data ++ ['/']) <+: rstrip_slash link.path.data

instance (link parent : ParsedURL) : Decidable (spec_in_scope link parent) := by
  unfold spec_in_scope
  infer_instance

/-- Python's `str.startswith` on code points. -/
def py_startswith (s pre : String) : Bool := pre.data.isPrefixOf s.data

/-- CPython's `urlunparse`/`urlunsplit` restricted to the shape the crawler
uses: `(scheme, netloc, path, "", "", "")`. -/
def urlunparse_base (scheme netloc path : String) : String :=
  let url :=
    if netloc ≠ "" ∨ (path ≠ "" ∧ py_startswith path "//" = true) then
      "//" ++ netloc ++
        (if path ≠ "" ∧ ¬ py_startswith path "/" = true then "/" ++ path
         else path)
    else path
  if scheme ≠ "" then scheme ++ ":" ++ url else url

/-- The per-href resolution step of `extract_child_links` (lines 179-196):
root-relative hrefs are rebuilt from the parent's scheme and authority,
absolute http(s) hrefs are kept, fragment / mailto / tel hrefs are dropped,
anything else goes through `urljoin` against the full page URL.  `none` means
the href contributes nothing to `absolute_links`. -/
def resolve_href (env : Env) (parent_url link : String) : Option String :=
  if py_startswith link "/" = true then
    let parsed_parent := env.urlparse parent_url
    some (urlunparse_base parsed_parent.scheme parsed_parent.netloc link)
  else if py_startswith link "http://" = true ∨
      py_startswith link "https://" = true then
    some link
  else if ¬ (py_startswith link "#" = true ∨ py_startswith link "mailto:" = true ∨
      py_startswith link "tel:" = true) then
    some (env.urljoin parent_url link)
  else none

/-- The seen-set dedup loop of `extract_child_links` (lines 205-210):
keep the first occurrence of each link, preserving order. -/
def dedup_seen (seen : List String) : List String → List String
  | [] => []
  | x :: xs =>
    if x ∈ seen then dedup_seen seen xs else x :: dedup_seen (x :: seen) xs

/-- `extract_child_links` before its final dedup: href resolution (skipping
falsy hrefs) followed by the scope-and-validity filter (line 199-202). -/
def valid_children (env : Env) (anchors : List String) (parent_url : String) :
    List String :=
  let absolute_links :=
    (anchors.filter (fun l => l ≠ "")).filterMap (resolve_href env parent_url)
  absolute_links.filter
    (fun l => is_sub_path env l parent_url && env.validateUrl l)

/-- `AgoraCrawlerService.extract_child_links`, taking the anchor hrefs the
DOM query `soup.find_all("a", href=True)` would return. -/
def extract_child_links (env : Env) (anchors : List String)
    (parent_url : String) : List String :=
  dedup_seen [] (valid_children env anchors parent_url)

/-- Python whitespace for `str.strip()` (ASCII portion). -/
def py_is_space (c : Char) : Bool :=
  c == ' ' || c == '\t' || c == '\n' || c == '\r' || c == '\x0b' || c == '\x0c'

/-- Python `str.strip()` with no argument. -/
def py_strip (s : String) : String :=
  ⟨((s.data.dropWhile py_is_space).reverse.dropWhile py_is_space).reverse⟩

/-- Line-boundary characters of Python `str.splitlines()`. -/
def is_linebreak (c : Char) : Bool :=
  c == '\n' || c == '\r' || c == '\x0b' || c == '\x0c' || c == '\x1c' ||
    c == '\x1d' || c == '\x1e' || c == '\x85' || c == '\u2028' || c == '\u2029'

/-- Python `str.splitlines()` on a code-point list (`\r\n` is one boundary;
a trailing boundary produces no empty final line). -/
def splitlines_chars : List Char → List Char → List String
  | [], acc => if acc.isEmpty then [] else [⟨acc.reverse⟩]
  | '\r' :: '\n' :: rest, acc => ⟨acc.reverse⟩ :: splitlines_chars rest []
  | c :: rest, acc =>
    if is_linebreak c then ⟨acc.reverse⟩ :: splitlines_chars rest []
    else splitlines_chars rest (c :: acc)

/-- Python `str.splitlines()`. -/
def py_splitlines (s : String) : List String := splitlines_chars s.data []

/-- The whitespace cleanup of `parse_html_content` (lines 240-242): strip each
line, split lines on double spaces into chunks, strip the chunks, join the
non-empty chunks with single spaces. -/
def clean_text (s : String) : String :=
  let lines := (py_splitlines s).map py_strip
  let chunks := (lines.map (fun line => (line.splitOn "  ").map py_strip)).flatten
  String.intercalate " " (chunks.filter (fun c => c ≠ ""))

/-- `AgoraCrawlerService.parse_html_content`: title, child links, cleaned
text; its catch-all handler turns a parser exception into `(None, [], "")`. -/
def parse_html_content (env : Env) (html_content parent_url : String) :
    Option String × List String × String :=
  match env.parseDom html_content with
  | Except.error _ => (none, [], "")
  | Except.ok dom =>
    let title :=
      match dom.titleString with
      | some s => if s = "" then none else some (py_strip s)
      | none => none
    (title, extract_child_links env dom.anchors parent_url, clean_text dom.text)

/-- A `RobotsInfo` of the service's permissive fallback: default crawl delay,
no request rate, no preferred host, allowed. -/
def default_robots_info (cfg : Config) : RobotsInfo :=
  { crawl_delay := some cfg.default_crawl_delay, request_rate := none,
    preferred_host := none, is_allowed := true }

/-- The robots.txt location both resolvers derive: scheme (with the variant's
fallback) and authority of the URL, plus `/robots.txt`; `parsed.netloc or
parsed.path` handles bare-host inputs like `example.com`. -/
def robots_url_of (env : Env) (fallback_scheme url : String) : String :=
  let parsed := env.urlparse url
  let scheme := if parsed.scheme = "" then fallback_scheme else parsed.scheme
  let netloc := if parsed.netloc = "" then parsed.path else parsed.netloc
  urlunparse_base scheme netloc "/robots.txt"

/-- `AgoraCrawlerService.read_robots_txt`.  The robots GET uses the
non-redirecting client; `raise_for_status` throws on any non-2xx code and is
caught together with transport errors; a parser exception is caught by the
second handler; `crawl_delay or self.default_crawl_delay` substitutes the
default for a missing or zero (falsy) delay. -/
def read_robots_txt (env : Env) (cfg : Config) (url : String) : RobotsInfo :=
  match env.http_simple (robots_url_of env "https" url) with
  | GetOutcome.exn _ => default_robots_info cfg
  | GetOutcome.ok code text =>
    if code < 200 ∨ 300 ≤ code then default_robots_info cfg
    else
      match env.parseRobots text url cfg.user_agent with
      | Except.error _ => default_robots_info cfg
      | Except.ok raw =>
        { crawl_delay :=
            match raw.crawl_delay with
            | none => some cfg.default_crawl_delay
            | some d =>
              if d = 0 then some cfg.default_crawl_delay else some d,
          request_rate := raw.request_rate,
          preferred_host := raw.preferred_host,
          is_allowed := raw.is_allowed }

/-- The GET-and-classify phase of `fetch_url` (lines 302-353), entered after
validation and the robots gate.  The second component of the result lists the
page URLs a GET was issued (or attempted) for. -/
def http_phase (env : Env) (url : String) (robots_info : Option RobotsInfo) :
    CrawlResult × List String :=
  match env.http url with
  | GetOutcome.ok code text =>
    if code = 200 then
      let parsed := parse_html_content env text url
      ({ url := url, title := parsed.1, content := parsed.2.2,
         status := CRAWL_SUCCESS, children := parsed.2.1,
         robots_allowed := (robots_info.map RobotsInfo.is_allowed).getD true,
         crawl_delay := robots_info.bind RobotsInfo.crawl_delay,
         status_code := some code, error_message := none }, [url])
    else
      ({ url := url, title := none, content := "", status := CRAWL_FAILED,
         children := [],
         robots_allowed := (robots_info.map RobotsInfo.is_allowed).getD true,
         crawl_delay := robots_info.bind RobotsInfo.crawl_delay,
         status_code := some code,
         error_message := some ("HTTP " ++ toString code) }, [url])
  | GetOutcome.exn e =>
    ({ url := url, title := none, content := "", status := CRAWL_FAILED,
       children := [],
       robots_allowed := (robots_info.map RobotsInfo.is_allowed).getD true,
       crawl_delay := robots_info.bind RobotsInfo.crawl_delay,
       status_code := none, error_message := some e }, [url])

/-- `AgoraCrawlerService.fetch_url`: validate, consult robots (when
configured), then GET and classify.  The crawl-delay sleep has no data flow
and is omitted. -/
def fetch_url (env : Env) (cfg : Config) (url : String) :
    CrawlResult × List String :=
  if env.validateUrl url = false then
    ({ url := url, title := none, content := "", status := CRAWL_INVALID_URL,
       children := [], robots_allowed := false, crawl_delay := none,
       status_code := none, error_message := some "Invalid URL format" }, [])
  else if cfg.respect_robots then
    let robots_info := read_robots_txt env cfg url
    if robots_info.is_allowed = false then
      ({ url := url, title := none, content := "",
         status := CRAWL_ROBOTS_BLOCKED, children := [],
         robots_allowed := false, crawl_delay := robots_info.crawl_delay,
         status_code := none,
         error_message := some "Blocked by robots.txt" }, [])
    else http_phase env url (some robots_info)
  else http_phase env url none

/-- `AgoraCrawlerService.crawl_url_batch`: fetch each URL, keep every result,
collect the children of successful results; `list(set(...))` on the collected
children is modelled as first-seen-order dedup. -/
def crawl_url_batch (env : Env) (cfg : Config) (urls : List String) :
    List String × List CrawlResult :=
  let crawled_results := urls.map (fun u => (fetch_url env cfg u).1)
  let all_child_links :=
    (crawled_results.map
      (fun r => if r.status = CRAWL_SUCCESS then r.children else [])).flatten
  (dedup_seen [] all_child_links, crawled_results)

/-- One run's outcome (`crawl_recursive`'s result dictionary, minus wall-clock
and timestamp fields). -/
structure CrawlRunResult where
  error : Option String
  crawl_results : List CrawlResult
  child_links : List String
  total_pages : Nat
  successful_pages : Nat
  failed_pages : Nat
  robots_blocked_pages : Nat
deriving DecidableEq, Repr

/-- The level loop of `crawl_recursive` (lines 408-427): bound the frontier to
`max_pages_per_level`, crawl the batch, accumulate results and children, and
form the next frontier from this level's children minus every URL already
crawled.  The `all_child_links` set is modelled as a first-seen-order
deduplicated list. -/
def crawl_loop (env : Env) (cfg : Config) (max_pages : Nat) :
    Nat → List String → List CrawlResult → List String →
      List CrawlResult × List String
  | 0, _, all_results, all_children => (all_results, all_children)
  | depth + 1, current_level, all_results, all_children =>
    if current_level.isEmpty then (all_results, all_children)
    else
      let limited_urls := current_level.take max_pages
      let batch := crawl_url_batch env cfg limited_urls
      let all_results2 := all_results ++ batch.2
      let all_children2 :=
        all_children ++ batch.1.filter (fun u => u ∉ all_children)
      let crawled_urls := all_results2.map CrawlResult.url
      crawl_loop env cfg max_pages depth
        (batch.1.filter (fun u => u ∉ crawled_urls)) all_results2 all_children2

/-- `AgoraCrawlerService.crawl_recursive`. -/
def crawl_recursive (env : Env) (cfg : Config) (start_url : String)
    (max_depth max_pages_per_level : Nat) : CrawlRunResult :=
  if env.validateUrl start_url = false then
    { error := some "Invalid start URL", crawl_results := [],
      child_links := [], total_pages := 0, successful_pages := 0,
      failed_pages := 0, robots_blocked_pages := 0 }
  else
    let looped :=
      crawl_loop env cfg max_pages_per_level max_depth [start_url] [] []
    { error := none, crawl_results := looped.1, child_links := looped.2,
      total_pages := looped.1.length,
      successful_pages :=
        (looped.1.filter (fun r => r.status = CRAWL_SUCCESS)).length,
      failed_pages :=
        (looped.1.filter (fun r => r.status = CRAWL_FAILED)).length,
      robots_blocked_pages :=
        (looped.1.filter (fun r => r.status = CRAWL_ROBOTS_BLOCKED)).length }

/-- A URL reachable from the seed in `n` child steps through the fetcher's
results: the discovery-distance relation of the crawl graph. -/
inductive ReachesIn (env : Env) (cfg : Config) (seed : String) :
    Nat → String → Prop
  | seed : ReachesIn env cfg seed 0 seed
  | step {n : Nat} {u c : String} : ReachesIn env cfg seed n u →
      c ∈ ((fetch_url env cfg u).1).children → ReachesIn env cfg seed (n + 1) c

/-- A concrete configuration (the source defaults) used by witnesses. -/
def cfgW : Config :=
  { user_agent := "AgoraScrapingPlatform/1.0", respect_robots := true,
    default_crawl_delay := 1 }

/-- A concrete base environment used by witnesses: network down, every URL
syntactically valid, a fixed parse of URLs. -/
def envW : Env :=
  { http := fun _ => GetOutcome.exn "offline",
    http_simple := fun _ => GetOutcome.exn "offline",
    validateUrl := fun _ => true,
    urlparse := fun _ => ⟨"https", "example.com", "/docs"⟩,
    urljoin := fun _ link => link,
    parseRobots := fun _ _ _ => Except.ok ⟨none, none, none, true⟩,
    parseDom := fun _ => Except.error "parse error" }

/-- Environment whose robots.txt denies every URL and whose pages are all
reachable: used to exercise the robots gate. -/
def envDeny : Env :=
  { envW with
    http := fun _ => GetOutcome.ok 200 "<html></html>",
    http_simple := fun _ => GetOutcome.ok 200 "Disallow: /",
    parseRobots := fun _ _ _ => Except.ok ⟨none, none, none, false⟩ }

/-- Environment whose page GETs answer 204 No Content and whose robots.txt is
unreachable (hence default-allow): a 2xx code other than 200. -/
def env204 : Env :=
  { envW with http := fun _ => GetOutcome.ok 204 "" }

/-- Environment whose page GETs succeed with status 200 but whose HTML parser
raises: exercises the parse-failure handler. -/
def envParseFail : Env :=
  { envW with
    http := fun _ => GetOutcome.ok 200 "<html",
    http_simple := fun _ => GetOutcome.ok 404 "" }

end AgoraSpec

namespace BackendSpec

open AgoraSpec

/-- `read_robots_txt` of `src/src/backend/crawler.py`, single-call semantics
(the per-domain cache only replays this value).  The scheme fallback is
"http", the shared redirect-following client performs the GET, the
fetch-failure handler returns the bare default-allow tuple `(None, None,
None, True)`, and a parser exception is not caught. -/
def read_robots_txt (env : Env) (url ua : String) :
    Except String (Option Rat × Option (Nat × Nat) × Option String × Bool) :=
  match env.http (robots_url_of env "http" url) with
  | GetOutcome.exn _ => Except.ok (none, none, none, true)
  | GetOutcome.ok code text =>
    if code < 200 ∨ 300 ≤ code then Except.ok (none, none, none, true)
    else
      match env.parseRobots text url ua with
      | Except.error e => Except.error e
      | Except.ok raw =>
        Except.ok
          (raw.crawl_delay, raw.request_rate, raw.preferred_host,
            raw.is_allowed)

end BackendSpec

namespace AgoraSpec

lemma isPrefixOf_eq_true_iff {l₁ l₂ : List Char} :
    l₁.isPrefixOf l₂ = true ↔ l₁ <+: l₂ := by
  exact List.isPrefixOf_iff_prefix

lemma get?_append_length {l₁ l₂ : List Char} :
    (l₁ ++ l₂).get? l₁.length = l₂.get? 0 := by
  induction l₁ with
  | nil => simp
  | cons a l ih => simpa using ih

/-- Characterization of the branch structure of `is_sub_path_core` on the
already-stripped paths. -/
lemma sub_path_branches_eq_some_true_iff (lp pp : List Char) :
    (if ¬ pp.isPrefixOf lp then some false
     else if lp = pp then some true
     else (lp.get? pp.length).map (fun c => c = '/')) = some true ↔
      (lp = pp ∨ (pp ++ ['/']) <+: lp) := by
  by_cases hpre : pp.isPrefixOf lp
  · rw [if_neg (by simp [hpre])]
    by_cases heq : lp = pp
    · simp [heq]
    · rw [if_neg heq]
      obtain ⟨r, hr⟩ := isPrefixOf_eq_true_iff.mp hpre
      subst hr
      have hr0 : r ≠ [] := by
        intro h0
        exact heq (by simp [h0])
      obtain ⟨c, r, rfl⟩ : ∃ c t, r = c :: t := by
        cases r with
        | nil => exact absurd rfl hr0
        | cons c t => exact ⟨c, t, rfl⟩
      rw [get?_append_length]
      constructor
      · intro h
        simp only [List.get?_cons_zero, Option.map_some'] at h
        have hc : c = '/' := by
          have := Option.some.inj h
          exact of_decide_eq_true (by simpa using this)
        refine Or.inr ?_
        rw [List.prefix_append_right_inj]
        simp [hc]
      · rintro (h | h)
        · exact absurd h heq
        · rw [List.prefix_append_right_inj] at h
          rcases List.cons_prefix_cons.mp h with ⟨hc, -⟩
          simp [← hc]
  · rw [if_pos (by simp [hpre])]
    simp only [Option.some.injEq, Bool.false_eq_true, false_iff]
    rintro (h | h)
    · exact hpre (by simp [isPrefixOf_eq_true_iff, h])
    · exact hpre (isPrefixOf_eq_true_iff.mpr
        (((pp.prefix_append ['/'])).trans h))

/-- C1: for URLs on the same authority, `is_sub_path` accepts exactly when the
stripped link path equals the stripped parent path or extends it across a `/`
boundary; URLs on a different authority are always rejected. -/
theorem is_sub_path_scope_iff (L P : ParsedURL) :
    (L.netloc = P.netloc →
      (is_sub_path_core L P = some true ↔ spec_in_scope L P)) ∧
    (L.netloc ≠ P.netloc → is_sub_path_core L P = some false) := by
  constructor
  · intro h
    unfold is_sub_path_core spec_in_scope
    rw [if_neg (by simp [h])]
    exact sub_path_branches_eq_some_true_iff
      (rstrip_slash L.path.data) (rstrip_slash P.path.data)
  · intro h
    unfold is_sub_path_core
    rw [if_pos (by simp [h])]

/-- C1 witness: the claim's concrete examples for parent
`https://example.com/path`. -/
theorem is_sub_path_scope_iff_witness :
    is_sub_path_core ⟨"https", "example.com", "/path"⟩
        ⟨"https", "example.com", "/path"⟩ = some true ∧
    is_sub_path_core ⟨"https", "example.com", "/path/sub"⟩
        ⟨"https", "example.com", "/path"⟩ = some true ∧
    is_sub_path_core ⟨"https", "example.com", "/pathsub"⟩
        ⟨"https", "example.com", "/path"⟩ ≠ some true ∧
    is_sub_path_core ⟨"https", "example.com", "/other"⟩
        ⟨"https", "example.com", "/path"⟩ ≠ some true ∧
    is_sub_path_core ⟨"https", "other.com", "/path"⟩
        ⟨"https", "example.com", "/path"⟩ = some false := by
  refine ⟨?_, ?_, ?_, ?_, ?_⟩
  · exact ((is_sub_path_scope_iff ⟨"https", "example.com", "/path"⟩
        ⟨"https", "example.com", "/path"⟩).1 rfl).mpr (Or.inl (by decide))
  · exact ((is_sub_path_scope_iff ⟨"https", "example.com", "/path/sub"⟩
        ⟨"https", "example.com", "/path"⟩).1 rfl).mpr (Or.inr (by decide))
  · intro h
    have h3 := ((is_sub_path_scope_iff ⟨"https", "example.com", "/pathsub"⟩
        ⟨"https", "example.com", "/path"⟩).1 rfl).mp h
    revert h3
    decide
  · intro h
    have h4 := ((is_sub_path_scope_iff ⟨"https", "example.com", "/other"⟩
        ⟨"https", "example.com", "/path"⟩).1 rfl).mp h
    revert h4
    decide
  · exact (is_sub_path_scope_iff ⟨"https", "other.com", "/path"⟩
        ⟨"https", "example.com", "/path"⟩).2 (by decide)

/-- C10: the index access in `is_sub_path` is always in bounds, so the check
is total: whenever the stripped parent path is a proper prefix of the stripped
link path, the link path is strictly longer, and the core always returns a
boolean. -/
theorem is_sub_path_total (L P : ParsedURL) :
    (∃ b, is_sub_path_core L P = some b) ∧
    (rstrip_slash P.path.data <+: rstrip_slash L.path.data →
      rstrip_slash L.path.data ≠ rstrip_slash P.path.data →
      (rstrip_slash P.path.data).length < (rstrip_slash L.path.data).length) := by
  have hlen : rstrip_slash P.path.data <+: rstrip_slash L.path.data →
      rstrip_slash L.path.data ≠ rstrip_slash P.path.data →
      (rstrip_slash P.path.data).length < (rstrip_slash L.path.data).length := by
    intro hpre hne
    rcases Nat.lt_or_ge (rstrip_slash P.path.data).length
        (rstrip_slash L.path.data).length with h | h
    · exact h
    · exact absurd (List.IsPrefix.eq_of_length_le hpre h).symm hne
  refine ⟨?_, hlen⟩
  simp only [is_sub_path_core]
  by_cases hnet : L.netloc ≠ P.netloc
  · exact ⟨false, if_pos hnet⟩
  · rw [if_neg hnet]
    by_cases hpre :
        (rstrip_slash P.path.data).isPrefixOf (rstrip_slash L.path.data) = true
    · rw [if_neg (not_not_intro hpre)]
      by_cases heq : rstrip_slash L.path.data = rstrip_slash P.path.data
      · exact ⟨true, if_pos heq⟩
      · rw [if_neg heq]
        have hlt := hlen (isPrefixOf_eq_true_iff.mp hpre) heq
        exact ⟨decide ((rstrip_slash L.path.data).get
            ⟨(rstrip_slash P.path.data).length, hlt⟩ = '/'),
          by rw [List.get?_eq_get hlt]; rfl⟩
    · exact ⟨false, if_pos hpre⟩

/-- C10 witness: the proper-prefix case `/path` below `/path/sub`, where the
indexed character exists. -/
theorem is_sub_path_total_witness :
    (∃ b, is_sub_path_core ⟨"https", "example.com", "/path/sub"⟩
        ⟨"https", "example.com", "/path"⟩ = some b) ∧
    (rstrip_slash "/path".data).length < (rstrip_slash "/path/sub".data).length := by
  refine ⟨(is_sub_path_total ⟨"https", "example.com", "/path/sub"⟩
      ⟨"https", "example.com", "/path"⟩).1, ?_⟩
  exact (is_sub_path_total ⟨"https", "example.com", "/path/sub"⟩
      ⟨"https", "example.com", "/path"⟩).2 (by decide) (by decide)

lemma mem_dedup_seen {x : String} :
    ∀ (l seen : List String), x ∈ dedup_seen seen l ↔ (x ∈ l ∧ x ∉ seen) := by
  intro l
  induction l with
  | nil => intro seen; simp [dedup_seen]
  | cons a l ih =>
    intro seen
    by_cases ha : a ∈ seen
    · rw [dedup_seen, if_pos ha, ih seen]
      constructor
      · rintro ⟨hl, hs⟩
        exact ⟨List.mem_cons_of_mem a hl, hs⟩
      · rintro ⟨hmem, hs⟩
        rcases List.mem_cons.mp hmem with rfl | hl
        · exact absurd ha hs
        · exact ⟨hl, hs⟩
    · rw [dedup_seen, if_neg ha]
      constructor
      · intro hmem
        rcases List.mem_cons.mp hmem with rfl | hmem2
        · exact ⟨List.mem_cons_self x l, ha⟩
        · obtain ⟨hl, hs⟩ := (ih (a :: seen)).mp hmem2
          exact ⟨List.mem_cons_of_mem a hl,
            fun h => hs (List.mem_cons_of_mem a h)⟩
      · rintro ⟨hmem, hs⟩
        rcases List.mem_cons.mp hmem with rfl | hl
        · exact List.mem_cons_self x _
        · by_cases hxa : x = a
          · subst hxa
            exact List.mem_cons_self x _
          · refine List.mem_cons_of_mem a ((ih (a :: seen)).mpr ⟨hl, ?_⟩)
            intro h
            rcases List.mem_cons.mp h with h | h
            · exact hxa h
            · exact hs h

lemma dedup_seen_sublist :
    ∀ (l seen : List String), List.Sublist (dedup_seen seen l) l := by
  intro l
  induction l with
  | nil => intro seen; simp [dedup_seen]
  | cons a l ih =>
    intro seen
    rw [dedup_seen]
    by_cases ha : a ∈ seen
    · rw [if_pos ha]
      exact (ih seen).trans (List.sublist_cons_self a l)
    · rw [if_neg ha]
      exact (ih (a :: seen)).cons₂ a

lemma dedup_seen_nodup :
    ∀ (l seen : List String), (dedup_seen seen l).Nodup := by
  intro l
  induction l with
  | nil => intro seen; simp [dedup_seen]
  | cons a l ih =>
    intro seen
    rw [dedup_seen]
    by_cases ha : a ∈ seen
    · rw [if_pos ha]
      exact ih seen
    · rw [if_neg ha]
      refine List.nodup_cons.mpr ⟨?_, ih (a :: seen)⟩
      intro hmem
      exact ((mem_dedup_seen l (a :: seen)).mp hmem).2 (List.mem_cons_self a seen)

/-- C9: the extractor's child list never contains duplicates, is a
subsequence of the filtered link stream (so first-seen order is preserved),
keeps exactly the links that survive the scope filter, and is a pure function
of its inputs (two runs on identical inputs coincide). -/
theorem extract_child_links_stable (env : Env) (anchors : List String)
    (parent_url : String) :
    (extract_child_links env anchors parent_url).Nodup ∧
    List.Sublist (extract_child_links env anchors parent_url)
      (valid_children env anchors parent_url) ∧
    (∀ x, x ∈ extract_child_links env anchors parent_url ↔
      x ∈ valid_children env anchors parent_url) ∧
    extract_child_links env anchors parent_url =
      extract_child_links env anchors parent_url := by
  refine ⟨dedup_seen_nodup _ _, dedup_seen_sublist _ _, ?_, rfl⟩
  intro x
  rw [extract_child_links, mem_dedup_seen]
  simp

lemma urlunparse_base_spec (scheme netloc path : String) (hs : scheme ≠ "")
    (hn : netloc ≠ "") (hp : py_startswith path "/" = true) :
    urlunparse_base scheme netloc path = scheme ++ "://" ++ netloc ++ path := by
  simp only [urlunparse_base]
  rw [if_pos hs, if_pos (Or.inl hn), if_neg (by simp [hp])]
  simp only [String.append_assoc]
  rw [← String.append_assoc ":" "//" (netloc ++ path)]
  rfl

/-- C6: the per-anchor href resolution of the extractor: a root-relative href
is rebuilt from the page's scheme and authority only; an absolute http(s)
href is kept unchanged; a fragment, mailto or tel href is discarded; any
other href is resolved relative to the full page URL. -/
theorem resolve_href_cases (env : Env) (parent_url link : String)
    (hs : (env.urlparse parent_url).scheme ≠ "")
    (hn : (env.urlparse parent_url).netloc ≠ "") :
    (py_startswith link "/" = true →
      resolve_href env parent_url link =
        some ((env.urlparse parent_url).scheme ++ "://" ++
          (env.urlparse parent_url).netloc ++ link)) ∧
    (py_startswith link "/" = false →
      (py_startswith link "http://" = true ∨
        py_startswith link "https://" = true) →
      resolve_href env parent_url link = some link) ∧
    (py_startswith link "/" = false → py_startswith link "http://" = false →
      py_startswith link "https://" = false →
      (py_startswith link "#" = true ∨ py_startswith link "mailto:" = true ∨
        py_startswith link "tel:" = true) →
      resolve_href env parent_url link = none) ∧
    (py_startswith link "/" = false → py_startswith link "http://" = false →
      py_startswith link "https://" = false → py_startswith link "#" = false →
      py_startswith link "mailto:" = false → py_startswith link "tel:" = false →
      resolve_href env parent_url link = some (env.urljoin parent_url link)) := by
  refine ⟨?_, ?_, ?_, ?_⟩
  · intro h1
    simp only [resolve_href]
    rw [if_pos h1, urlunparse_base_spec _ _ _ hs hn h1]
  · intro h1 h2
    simp only [resolve_href]
    rw [if_neg (by simp [h1]), if_pos h2]
  · intro h1 h2 h3 h4
    simp only [resolve_href]
    rw [if_neg (by simp [h1]), if_neg (by simp [h2, h3]),
      if_neg (not_not_intro h4)]
  · intro h1 h2 h3 h4 h5 h6
    simp only [resolve_href]
    rw [if_neg (by simp [h1]), if_neg (by simp [h2, h3]),
      if_pos (by simp [h4, h5, h6])]

/-- C6 witness: concrete hrefs of each kind against parent
`https://example.com/docs`. -/
theorem resolve_href_cases_witness :
    resolve_href envW "https://example.com/docs" "/docs/intro" =
      some "https://example.com/docs/intro" ∧
    resolve_href envW "https://example.com/docs" "https://example.com/docs/a" =
      some "https://example.com/docs/a" ∧
    resolve_href envW "https://example.com/docs" "#top" = none ∧
    resolve_href envW "https://example.com/docs" "mailto:x@example.com" = none ∧
    resolve_href envW "https://example.com/docs" "guide.html" =
      some (envW.urljoin "https://example.com/docs" "guide.html") := by
  refine ⟨?_, ?_, ?_, ?_, ?_⟩
  · have h := (resolve_href_cases envW "https://example.com/docs" "/docs/intro"
      (by decide) (by decide)).1 (by decide)
    rw [h]
    rfl
  · exact (resolve_href_cases envW "https://example.com/docs"
      "https://example.com/docs/a" (by decide) (by decide)).2.1 (by decide)
      (Or.inr (by decide))
  · exact (resolve_href_cases envW "https://example.com/docs" "#top"
      (by decide) (by decide)).2.2.1 (by decide) (by decide) (by decide)
      (Or.inl (by decide))
  · exact (resolve_href_cases envW "https://example.com/docs"
      "mailto:x@example.com" (by decide) (by decide)).2.2.1 (by decide)
      (by decide) (by decide) (Or.inr (Or.inl (by decide)))
  · exact (resolve_href_cases envW "https://example.com/docs" "guide.html"
      (by decide) (by decide)).2.2.2 (by decide) (by decide) (by decide)
      (by decide) (by decide) (by decide)

lemma http_phase_ok (env : Env) (url : String) (ri : Option RobotsInfo)
    {code : Nat} {text : String} (h : env.http url = GetOutcome.ok code text) :
    http_phase env url ri =
      if code = 200 then
        ({ url := url, title := (parse_html_content env text url).1,
           content := (parse_html_content env text url).2.2,
           status := CRAWL_SUCCESS,
           children := (parse_html_content env text url).2.1,
           robots_allowed := (ri.map RobotsInfo.is_allowed).getD true,
           crawl_delay := ri.bind RobotsInfo.crawl_delay,
           status_code := some code, error_message := none }, [url])
      else
        ({ url := url, title := none, content := "", status := CRAWL_FAILED,
           children := [],
           robots_allowed := (ri.map RobotsInfo.is_allowed).getD true,
           crawl_delay := ri.bind RobotsInfo.crawl_delay,
           status_code := some code,
           error_message := some ("HTTP " ++ toString code) }, [url]) := by
  unfold http_phase
  rw [h]

lemma http_phase_exn (env : Env) (url : String) (ri : Option RobotsInfo)
    {e : String} (h : env.http url = GetOutcome.exn e) :
    http_phase env url ri =
      ({ url := url, title := none, content := "", status := CRAWL_FAILED,
         children := [],
         robots_allowed := (ri.map RobotsInfo.is_allowed).getD true,
         crawl_delay := ri.bind RobotsInfo.crawl_delay,
         status_code := none, error_message := some e }, [url]) := by
  unfold http_phase
  rw [h]

lemma fetch_url_eq_http_phase (env : Env) (cfg : Config) (url : String)
    (hv : env.validateUrl url = true)
    (ha : cfg.respect_robots = true →
      (read_robots_txt env cfg url).is_allowed = true) :
    fetch_url env cfg url = http_phase env url
      (if cfg.respect_robots then some (read_robots_txt env cfg url)
       else none) := by
  simp only [fetch_url]
  rw [if_neg (by simp [hv])]
  by_cases hr : cfg.respect_robots = true
  · rw [if_pos hr, if_neg (by simp [ha hr]), if_pos hr]
  · rw [if_neg hr, if_neg hr]

/-- C3: when robots checking is on and the resolved policy denies the URL,
the fetch returns a `robots_blocked` result with `robots_allowed = false` and
issues no page GET at all (the denial is decided before any page request). -/
theorem fetch_url_robots_blocked (env : Env) (cfg : Config) (url : String)
    (hr : cfg.respect_robots = true)
    (hv : env.validateUrl url = true)
    (hd : (read_robots_txt env cfg url).is_allowed = false) :
    (fetch_url env cfg url).1.status = CRAWL_ROBOTS_BLOCKED ∧
    (fetch_url env cfg url).1.robots_allowed = false ∧
    (fetch_url env cfg url).1.error_message = some "Blocked by robots.txt" ∧
    (fetch_url env cfg url).2 = [] := by
  simp only [fetch_url]
  rw [if_neg (by simp [hv]), if_pos hr, if_pos hd]
  exact ⟨rfl, rfl, rfl, rfl⟩

/-- C3 witness: a robots.txt that denies everything blocks a concrete fetch
with no page GET. -/
theorem fetch_url_robots_blocked_witness :
    (fetch_url envDeny cfgW "https://example.com/docs").1.status =
      CRAWL_ROBOTS_BLOCKED ∧
    (fetch_url envDeny cfgW "https://example.com/docs").1.robots_allowed =
      false ∧
    (fetch_url envDeny cfgW "https://example.com/docs").1.error_message =
      some "Blocked by robots.txt" ∧
    (fetch_url envDeny cfgW "https://example.com/docs").2 = [] := by
  have h := fetch_url_robots_blocked envDeny cfgW "https://example.com/docs"
    rfl rfl (by rfl)
  exact ⟨h.1, h.2.1, h.2.2.1, h.2.2.2⟩

/-- C4 counterexample: with robots.txt unreachable, the service resolver
returns the default crawl delay (1.0 s) — the crawl delay is not absent, as
the claim states. -/
theorem read_robots_txt_default_delay_counterexample :
    (read_robots_txt envW cfgW "https://example.com/docs").crawl_delay =
      some 1 ∧
    (read_robots_txt envW cfgW "https://example.com/docs").crawl_delay ≠
      none ∧
    (read_robots_txt envW cfgW "https://example.com/docs").is_allowed =
      true := by
  refine ⟨rfl, ?_, rfl⟩
  intro h
  exact Option.noConfusion
    ((rfl : (read_robots_txt envW cfgW "https://example.com/docs").crawl_delay
        = some 1) ▸ h)

/-- C4 amended: on robots fetch network failure, non-2xx status, or parse
error, both resolvers are default-allow with no request rate; the backend
variant additionally has no crawl delay on fetch failure, while the service
substitutes its default (1.0 s) crawl delay. -/
theorem robots_failure_default_allow (env : Env) (cfg : Config)
    (url ua : String) :
    (∀ e, env.http_simple (robots_url_of env "https" url) = GetOutcome.exn e →
      read_robots_txt env cfg url = default_robots_info cfg) ∧
    (∀ code text,
      env.http_simple (robots_url_of env "https" url) =
        GetOutcome.ok code text →
      code < 200 ∨ 300 ≤ code →
      read_robots_txt env cfg url = default_robots_info cfg) ∧
    (∀ code text e,
      env.http_simple (robots_url_of env "https" url) =
        GetOutcome.ok code text →
      200 ≤ code ∧ code < 300 →
      env.parseRobots text url cfg.user_agent = Except.error e →
      read_robots_txt env cfg url = default_robots_info cfg) ∧
    (default_robots_info cfg).crawl_delay = some cfg.default_crawl_delay ∧
    (default_robots_info cfg).request_rate = none ∧
    (default_robots_info cfg).is_allowed = true ∧
    (∀ e, env.http (robots_url_of env "http" url) = GetOutcome.exn e →
      BackendSpec.read_robots_txt env url ua =
        Except.ok (none, none, none, true)) ∧
    (∀ code text,
      env.http (robots_url_of env "http" url) = GetOutcome.ok code text →
      code < 200 ∨ 300 ≤ code →
      BackendSpec.read_robots_txt env url ua =
        Except.ok (none, none, none, true)) := by
  have hok : ∀ code text,
      env.http_simple (robots_url_of env "https" url) =
        GetOutcome.ok code text →
      read_robots_txt env cfg url =
        (if code < 200 ∨ 300 ≤ code then default_robots_info cfg
         else
           match env.parseRobots text url cfg.user_agent with
           | Except.error _ => default_robots_info cfg
           | Except.ok raw =>
             { crawl_delay :=
                 match raw.crawl_delay with
                 | none => some cfg.default_crawl_delay
                 | some d =>
                   if d = 0 then some cfg.default_crawl_delay else some d,
               request_rate := raw.request_rate,
               preferred_host := raw.preferred_host,
               is_allowed := raw.is_allowed }) := by
    intro code text h
    unfold read_robots_txt
    rw [h]
  have hbok : ∀ code text,
      env.http (robots_url_of env "http" url) = GetOutcome.ok code text →
      BackendSpec.read_robots_txt env url ua =
        (if code < 200 ∨ 300 ≤ code then Except.ok (none, none, none, true)
         else
           match env.parseRobots text url ua with
           | Except.error e => Except.error e
           | Except.ok raw =>
             Except.ok (raw.crawl_delay, raw.request_rate,
               raw.preferred_host, raw.is_allowed)) := by
    intro code text h
    unfold BackendSpec.read_robots_txt
    rw [h]
  refine ⟨?_, ?_, ?_, rfl, rfl, rfl, ?_, ?_⟩
  · intro e h
    unfold read_robots_txt
    rw [h]
  · intro code text h hcode
    rw [hok code text h, if_pos hcode]
  · intro code text e h hcode hparse
    rw [hok code text h, if_neg (by omega), hparse]
  · intro e h
    unfold BackendSpec.read_robots_txt
    rw [h]
  · intro code text h hcode
    rw [hbok code text h, if_pos hcode]

/-- C4 witness: with the network down, the service resolver returns the
default-allow policy (with the default delay) and the backend resolver the
bare default-allow tuple. -/
theorem robots_failure_default_allow_witness :
    read_robots_txt envW cfgW "https://example.com/docs" =
      default_robots_info cfgW ∧
    BackendSpec.read_robots_txt envW "https://example.com/docs" "SpecUA" =
      Except.ok (none, none, none, true) := by
  refine ⟨?_, ?_⟩
  · exact (robots_failure_default_allow envW cfgW "https://example.com/docs"
      "SpecUA").1 "offline" rfl
  · exact (robots_failure_default_allow envW cfgW "https://example.com/docs"
      "SpecUA").2.2.2.2.2.2.1 "offline" rfl

/-- C5 counterexample: a 204 No Content response — a 2xx status — is
classified `failed`, not `success`: the code tests `status_code == 200`
exactly, not the 2xx range the claim describes. -/
theorem fetch_url_204_not_success :
    env204.http "https://example.com/docs" = GetOutcome.ok 204 "" ∧
    (200 ≤ 204 ∧ 204 < 300) ∧
    (fetch_url env204 cfgW "https://example.com/docs").1.status =
      CRAWL_FAILED ∧
    (fetch_url env204 cfgW "https://example.com/docs").1.status ≠
      CRAWL_SUCCESS ∧
    (fetch_url env204 cfgW "https://example.com/docs").1.error_message =
      some "HTTP 204" := by
  refine ⟨rfl, by omega, rfl, ?_, rfl⟩
  intro h
  have h2 : CRAWL_FAILED = CRAWL_SUCCESS := by
    calc CRAWL_FAILED
        = (fetch_url env204 cfgW "https://example.com/docs").1.status := rfl
      _ = CRAWL_SUCCESS := h
  exact absurd h2 (by decide)

/-- C5 amended: for a validated, robots-allowed URL the result is `success`
iff the final GET response carries status code exactly 200; a 200 response is
parsed for title, children and content and records its code; any other code
yields `failed` with empty content and children and an `HTTP {code}` message;
a transport error yields `failed` with the exception text and no code. -/
theorem fetch_url_success_iff_200 (env : Env) (cfg : Config) (url : String)
    (hv : env.validateUrl url = true)
    (ha : cfg.respect_robots = true →
      (read_robots_txt env cfg url).is_allowed = true) :
    ((fetch_url env cfg url).1.status = CRAWL_SUCCESS ↔
      ∃ text, env.http url = GetOutcome.ok 200 text) ∧
    (∀ text, env.http url = GetOutcome.ok 200 text →
      (fetch_url env cfg url).1.title = (parse_html_content env text url).1 ∧
      (fetch_url env cfg url).1.children =
        (parse_html_content env text url).2.1 ∧
      (fetch_url env cfg url).1.content =
        (parse_html_content env text url).2.2 ∧
      (fetch_url env cfg url).1.status_code = some 200) ∧
    (∀ code text, env.http url = GetOutcome.ok code text → code ≠ 200 →
      (fetch_url env cfg url).1.status = CRAWL_FAILED ∧
      (fetch_url env cfg url).1.content = "" ∧
      (fetch_url env cfg url).1.children = [] ∧
      (fetch_url env cfg url).1.status_code = some code ∧
      (fetch_url env cfg url).1.error_message =
        some ("HTTP " ++ toString code)) ∧
    (∀ e, env.http url = GetOutcome.exn e →
      (fetch_url env cfg url).1.status = CRAWL_FAILED ∧
      (fetch_url env cfg url).1.content = "" ∧
      (fetch_url env cfg url).1.children = [] ∧
      (fetch_url env cfg url).1.status_code = none ∧
      (fetch_url env cfg url).1.error_message = some e) := by
  rw [fetch_url_eq_http_phase env cfg url hv ha]
  refine ⟨?_, ?_, ?_, ?_⟩
  · cases hhttp : env.http url with
    | ok code text =>
      rw [http_phase_ok _ _ _ hhttp]
      by_cases hc : code = 200
      · rw [if_pos hc]
        subst hc
        exact ⟨fun _ => ⟨text, rfl⟩, fun _ => rfl⟩
      · rw [if_neg hc]
        constructor
        · intro hst
          simp only at hst
          exact absurd hst (by decide)
        · rintro ⟨t, ht⟩
          cases ht
          exact absurd rfl hc
    | exn e =>
      rw [http_phase_exn _ _ _ hhttp]
      constructor
      · intro hst
        simp only at hst
        exact absurd hst (by decide)
      · rintro ⟨t, ht⟩
        exact GetOutcome.noConfusion ht
  · intro text hhttp
    rw [http_phase_ok _ _ _ hhttp, if_pos rfl]
    exact ⟨rfl, rfl, rfl, rfl⟩
  · intro code text hhttp hc
    rw [http_phase_ok _ _ _ hhttp, if_neg hc]
    exact ⟨rfl, rfl, rfl, rfl, rfl⟩
  · intro e hhttp
    rw [http_phase_exn _ _ _ hhttp]
    exact ⟨rfl, rfl, rfl, rfl, rfl⟩

/-- C5 witness: a concrete transport failure is classified `failed` with the
exception text, and `success` is impossible for it. -/
theorem fetch_url_success_iff_200_witness :
    ¬ (fetch_url envW cfgW "https://example.com/docs").1.status =
      CRAWL_SUCCESS ∧
    (fetch_url envW cfgW "https://example.com/docs").1.status =
      CRAWL_FAILED ∧
    (fetch_url envW cfgW "https://example.com/docs").1.error_message =
      some "offline" := by
  have h := fetch_url_success_iff_200 envW cfgW "https://example.com/docs"
    rfl (fun _ => rfl)
  refine ⟨?_, (h.2.2.2 "offline" rfl).1, (h.2.2.2 "offline" rfl).2.2.2.2⟩
  intro hst
  obtain ⟨t, ht⟩ := h.1.mp hst
  exact GetOutcome.noConfusion ht

/-- C7 counterexample: an HTML-parse failure on a 200 response is not captured
in the status or error_message fields — the result still reads `success` with
no error message (only title/children/content are emptied). -/
theorem fetch_url_parse_failure_counterexample :
    envParseFail.parseDom "<html" = Except.error "parse error" ∧
    (fetch_url envParseFail cfgW "https://example.com/docs").1.status =
      CRAWL_SUCCESS ∧
    (fetch_url envParseFail cfgW "https://example.com/docs").1.error_message =
      none ∧
    (fetch_url envParseFail cfgW "https://example.com/docs").1.title = none ∧
    (fetch_url envParseFail cfgW "https://example.com/docs").1.children =
      [] ∧
    (fetch_url envParseFail cfgW "https://example.com/docs").1.content =
      "" := by
  exact ⟨rfl, rfl, rfl, rfl, rfl, rfl⟩

/-- C7 amended: `fetch_url` always returns one of the four terminal statuses
(no exception escapes the fetcher): invalid URLs, robots denials, transport
errors and HTTP errors are captured in status and error_message; an
HTML-parse failure is swallowed inside the parser and yields a `success`
result with empty title, children and content and no error message. -/
theorem fetch_url_captures_failures (env : Env) (cfg : Config) (url : String) :
    ((fetch_url env cfg url).1.status = CRAWL_INVALID_URL ∨
     (fetch_url env cfg url).1.status = CRAWL_ROBOTS_BLOCKED ∨
     (fetch_url env cfg url).1.status = CRAWL_SUCCESS ∨
     (fetch_url env cfg url).1.status = CRAWL_FAILED) ∧
    (env.validateUrl url = false →
      (fetch_url env cfg url).1.status = CRAWL_INVALID_URL ∧
      (fetch_url env cfg url).1.error_message = some "Invalid URL format") ∧
    (env.validateUrl url = true →
      (cfg.respect_robots = true →
        (read_robots_txt env cfg url).is_allowed = true) →
      ∀ e, env.http url = GetOutcome.exn e →
        (fetch_url env cfg url).1.status = CRAWL_FAILED ∧
        (fetch_url env cfg url).1.error_message = some e) ∧
    (env.validateUrl url = true →
      (cfg.respect_robots = true →
        (read_robots_txt env cfg url).is_allowed = true) →
      ∀ code text, env.http url = GetOutcome.ok code text → code ≠ 200 →
        (fetch_url env cfg url).1.status = CRAWL_FAILED ∧
        (fetch_url env cfg url).1.error_message =
          some ("HTTP " ++ toString code)) ∧
    (env.validateUrl url = true →
      (cfg.respect_robots = true →
        (read_robots_txt env cfg url).is_allowed = true) →
      ∀ text pe, env.http url = GetOutcome.ok 200 text →
        env.parseDom text = Except.error pe →
        (fetch_url env cfg url).1.status = CRAWL_SUCCESS ∧
        (fetch_url env cfg url).1.title = none ∧
        (fetch_url env cfg url).1.children = [] ∧
        (fetch_url env cfg url).1.content = "" ∧
        (fetch_url env cfg url).1.error_message = none) := by
  refine ⟨?_, ?_, ?_, ?_, ?_⟩
  · by_cases hv : env.validateUrl url = true
    · by_cases hb : cfg.respect_robots = true ∧
          (read_robots_txt env cfg url).is_allowed = false
      · refine Or.inr (Or.inl ?_)
        simp only [fetch_url]
        rw [if_neg (by simp [hv]), if_pos hb.1, if_pos hb.2]
      · have ha : cfg.respect_robots = true →
            (read_robots_txt env cfg url).is_allowed = true := by
          intro hr
          by_cases h2 : (read_robots_txt env cfg url).is_allowed = true
          · exact h2
          · exact absurd ⟨hr, by simpa using h2⟩ hb
        rw [fetch_url_eq_http_phase env cfg url hv ha]
        cases hhttp : env.http url with
        | ok code text =>
          rw [http_phase_ok _ _ _ hhttp]
          by_cases hc : code = 200
          · rw [if_pos hc]
            exact Or.inr (Or.inr (Or.inl rfl))
          · rw [if_neg hc]
            exact Or.inr (Or.inr (Or.inr rfl))
        | exn e =>
          rw [http_phase_exn _ _ _ hhttp]
          exact Or.inr (Or.inr (Or.inr rfl))
    · refine Or.inl ?_
      simp only [fetch_url]
      rw [if_pos (by simpa using hv)]
  · intro hv
    simp only [fetch_url]
    rw [if_pos hv]
    exact ⟨rfl, rfl⟩
  · intro hv ha e hhttp
    rw [fetch_url_eq_http_phase env cfg url hv ha,
      http_phase_exn _ _ _ hhttp]
    exact ⟨rfl, rfl⟩
  · intro hv ha code text hhttp hc
    rw [fetch_url_eq_http_phase env cfg url hv ha,
      http_phase_ok _ _ _ hhttp, if_neg hc]
    exact ⟨rfl, rfl⟩
  · intro hv ha text pe hhttp hparse
    rw [fetch_url_eq_http_phase env cfg url hv ha,
      http_phase_ok _ _ _ hhttp, if_pos rfl]
    have hp : parse_html_content env text url = (none, [], "") := by
      unfold parse_html_content
      rw [hparse]
    rw [hp]
    exact ⟨rfl, rfl, rfl, rfl, rfl⟩

/-- C7 amended witness: the transport-error case at a concrete input. -/
theorem fetch_url_captures_failures_witness :
    ((fetch_url envW cfgW "https://example.com/docs").1.status =
        CRAWL_INVALID_URL ∨
     (fetch_url envW cfgW "https://example.com/docs").1.status =
        CRAWL_ROBOTS_BLOCKED ∨
     (fetch_url envW cfgW "https://example.com/docs").1.status =
        CRAWL_SUCCESS ∨
     (fetch_url envW cfgW "https://example.com/docs").1.status =
        CRAWL_FAILED) ∧
    (fetch_url envW cfgW "https://example.com/docs").1.status =
      CRAWL_FAILED ∧
    (fetch_url envW cfgW "https://example.com/docs").1.error_message =
      some "offline" := by
  have h := fetch_url_captures_failures envW cfgW "https://example.com/docs"
  exact ⟨h.1, h.2.2.1 rfl (fun _ => rfl) "offline" rfl⟩

lemma http_phase_url (env : Env) (u : String) (ri : Option RobotsInfo) :
    ((http_phase env u ri).1).url = u := by
  cases h : env.http u with
  | ok code text =>
    rw [http_phase_ok env u ri h]
    by_cases hc : code = 200
    · rw [if_pos hc]
    · rw [if_neg hc]
  | exn e =>
    rw [http_phase_exn env u ri h]

lemma fetch_url_url (env : Env) (cfg : Config) (u : String) :
    ((fetch_url env cfg u).1).url = u := by
  simp only [fetch_url]
  by_cases hv : env.validateUrl u = false
  · rw [if_pos hv]
  · rw [if_neg hv]
    by_cases hr : cfg.respect_robots = true
    · rw [if_pos hr]
      by_cases hb : (read_robots_txt env cfg u).is_allowed = false
      · rw [if_pos hb]
      · rw [if_neg hb]
        exact http_phase_url env u _
    · rw [if_neg hr]
      exact http_phase_url env u _

lemma crawl_url_batch_urls (env : Env) (cfg : Config) (urls : List String) :
    ((crawl_url_batch env cfg urls).2).map CrawlResult.url = urls := by
  unfold crawl_url_batch
  rw [List.map_map]
  have h : (CrawlResult.url ∘ fun u => (fetch_url env cfg u).1) =
      fun u => u := by
    funext u
    exact fetch_url_url env cfg u
  rw [h]
  exact List.map_id urls

lemma crawl_url_batch_children_nodup (env : Env) (cfg : Config)
    (urls : List String) : ((crawl_url_batch env cfg urls).1).Nodup := by
  exact dedup_seen_nodup _ _

lemma crawl_url_batch_children_mem (env : Env) (cfg : Config)
    (urls : List String) (c : String)
    (hmem : c ∈ (crawl_url_batch env cfg urls).1) :
    ∃ u ∈ urls, c ∈ ((fetch_url env cfg u).1).children := by
  unfold crawl_url_batch at hmem
  obtain ⟨hm, -⟩ := (mem_dedup_seen _ _).mp hmem
  rw [List.mem_flatten] at hm
  obtain ⟨l, hl, hcl⟩ := hm
  rw [List.mem_map] at hl
  obtain ⟨r, hr, rfl⟩ := hl
  rw [List.mem_map] at hr
  obtain ⟨u, hu, rfl⟩ := hr
  refine ⟨u, hu, ?_⟩
  by_cases hs : ((fetch_url env cfg u).1).status = CRAWL_SUCCESS
  · rwa [if_pos hs] at hcl
  · rw [if_neg hs] at hcl
    exact absurd hcl (List.not_mem_nil c)

lemma crawl_loop_nodup (env : Env) (cfg : Config) (mp : Nat) :
    ∀ (d : Nat) (level : List String) (acc : List CrawlResult)
      (ch : List String),
      (acc.map CrawlResult.url).Nodup → level.Nodup →
      (∀ u ∈ level, u ∉ acc.map CrawlResult.url) →
      (((crawl_loop env cfg mp d level acc ch).1).map CrawlResult.url).Nodup := by
  intro d
  induction d with
  | zero =>
    intro level acc ch h1 _ _
    exact h1
  | succ d ih =>
    intro level acc ch h1 h2 h3
    rw [crawl_loop]
    by_cases he : level.isEmpty
    · rw [if_pos he]
      exact h1
    · rw [if_neg he]
      have hacc2 : ((acc ++ (crawl_url_batch env cfg (level.take mp)).2).map
          CrawlResult.url).Nodup := by
        rw [List.map_append, crawl_url_batch_urls]
        refine List.Nodup.append h1 (List.Nodup.sublist (List.take_sublist mp level) h2) ?_
        intro a ha hat
        exact h3 a (List.take_subset mp level hat) ha
      refine ih _ _ _ hacc2 ?_ ?_
      · exact List.Nodup.filter _ (crawl_url_batch_children_nodup env cfg _)
      · intro u hu
        have h4 := (List.mem_filter.mp hu).2
        exact of_decide_eq_true h4

/-- C2: across a whole run, no URL is fetched twice: the result list of
`crawl_recursive` carries pairwise-distinct URLs, so the set of visited URLs
has exactly as many elements as there are CrawlResults. -/
theorem crawl_recursive_urls_nodup (env : Env) (cfg : Config)
    (start : String) (D mp : Nat) :
    (((crawl_recursive env cfg start D mp).crawl_results).map
      CrawlResult.url).Nodup ∧
    ((((crawl_recursive env cfg start D mp).crawl_results).map
      CrawlResult.url).dedup).length =
      ((crawl_recursive env cfg start D mp).crawl_results).length := by
  have hn : (((crawl_recursive env cfg start D mp).crawl_results).map
      CrawlResult.url).Nodup := by
    unfold crawl_recursive
    by_cases hv : env.validateUrl start = false
    · rw [if_pos hv]
      simp
    · rw [if_neg hv]
      refine crawl_loop_nodup env cfg mp D [start] [] [] (by simp)
        (List.nodup_singleton start) ?_
      intro u _ hmem
      exact absurd hmem (List.not_mem_nil u)
  refine ⟨hn, ?_⟩
  rw [List.Nodup.dedup hn, List.length_map]

lemma crawl_loop_reach (env : Env) (cfg : Config) (mp : Nat) (seed : String) :
    ∀ (d n0 : Nat) (level : List String) (acc : List CrawlResult)
      (ch : List String),
      (∀ u ∈ level, ReachesIn env cfg seed n0 u) →
      ∀ r ∈ (crawl_loop env cfg mp d level acc ch).1,
        r ∈ acc ∨ ∃ n, n < n0 + d ∧ ReachesIn env cfg seed n r.url := by
  intro d
  induction d with
  | zero =>
    intro n0 level acc ch _ r hr
    exact Or.inl hr
  | succ d ih =>
    intro n0 level acc ch hlev r hr
    rw [crawl_loop] at hr
    by_cases he : level.isEmpty
    · rw [if_pos he] at hr
      exact Or.inl hr
    · rw [if_neg he] at hr
      have hnew : ∀ u ∈ ((crawl_url_batch env cfg (level.take mp)).1).filter
          (fun u => u ∉ (acc ++ (crawl_url_batch env cfg
            (level.take mp)).2).map CrawlResult.url),
          ReachesIn env cfg seed (n0 + 1) u := by
        intro u hu
        obtain ⟨v, hv, hcv⟩ := crawl_url_batch_children_mem env cfg
          (level.take mp) u (List.mem_of_mem_filter hu)
        exact ReachesIn.step (hlev v (List.take_subset mp level hv)) hcv
      rcases ih (n0 + 1) _ _ _ hnew r hr with hacc | ⟨n, hn, hre⟩
      · rcases List.mem_append.mp hacc with h | h
        · exact Or.inl h
        · refine Or.inr ⟨n0, by omega, ?_⟩
          have hu : r.url ∈ ((crawl_url_batch env cfg
              (level.take mp)).2).map CrawlResult.url :=
            List.mem_map_of_mem CrawlResult.url h
          rw [crawl_url_batch_urls] at hu
          exact hlev r.url (List.take_subset mp level hu)
      · exact Or.inr ⟨n, by omega, hre⟩

/-- C8: the orchestrator executes at most `max_depth` levels: every produced
CrawlResult is for a URL whose discovery distance from the seed is strictly
below `max_depth`, and a run with `max_depth = 0` on a valid seed returns no
results and no error. -/
theorem crawl_recursive_depth_bound (env : Env) (cfg : Config)
    (start : String) (D mp : Nat) (hv : env.validateUrl start = true) :
    (crawl_recursive env cfg start 0 mp).error = none ∧
    (crawl_recursive env cfg start 0 mp).crawl_results = [] ∧
    ∀ r ∈ (crawl_recursive env cfg start D mp).crawl_results,
      ∃ n, n < D ∧ ReachesIn env cfg start n r.url := by
  have hvF : ¬ env.validateUrl start = false := by simp [hv]
  refine ⟨?_, ?_, ?_⟩
  · unfold crawl_recursive
    rw [if_neg hvF]
  · unfold crawl_recursive
    rw [if_neg hvF]
    rfl
  · intro r hr
    unfold crawl_recursive at hr
    rw [if_neg hvF] at hr
    have hseed : ∀ u ∈ [start], ReachesIn env cfg start 0 u := by
      intro u hu
      rw [List.mem_singleton] at hu
      subst hu
      exact ReachesIn.seed
    rcases crawl_loop_reach env cfg mp start D 0 [start] [] [] hseed r hr with
      h | ⟨n, hn, hre⟩
    · exact absurd h (List.not_mem_nil r)
    · exact ⟨n, by omega, hre⟩

/-- C8 witness: the depth bound instantiated at a concrete offline
environment, depth 3. -/
theorem crawl_recursive_depth_bound_witness :
    (crawl_recursive envW cfgW "https://example.com/docs" 0 50).error =
      none ∧
    (crawl_recursive envW cfgW "https://example.com/docs" 0 50).crawl_results =
      [] ∧
    ∀ r ∈ (crawl_recursive envW cfgW
        "https://example.com/docs" 3 50).crawl_results,
      ∃ n, n < 3 ∧ ReachesIn envW cfgW "https://example.com/docs" n r.url :=
  crawl_recursive_depth_bound envW cfgW "https://example.com/docs" 3 50 rfl

end AgoraSpec
